import Mathlib

/-!
Verification of the pet-care platform booking/authorization core.

The definitions below are a shallow embedding of the JavaScript source:
controllers (authController, petController, bookingController), the
Mongoose models (Booking, User, Pet, Service) and the Joi validation
schemas, restricted to the fields and operations the verified claims
touch.  Times are modelled as integer milliseconds since the epoch;
JavaScript numbers used for money are modelled as exact rationals.
Stores (MongoDB collections) are association lists from ids to records;
each HTTP handler becomes a pure function from the store and the request
data to either an error (with the HTTP status code the error middleware
would assign) or the updated store plus the response payload.
-/

deriving instance DecidableEq for Except

namespace PetCare

abbrev UserId := Nat
abbrev ResId := Nat
/-- Milliseconds since the epoch, as used by JavaScript Date arithmetic. -/
abbrev Ms := Int

/-- Pet species enum from the Pet model / Joi schemas. -/
inductive Species where
  | dog | cat | bird | fish | rabbit | hamster | other
deriving DecidableEq, Repr

/-- Service priceType enum from the Service model. -/
inductive PriceType where
  | hourly | daily | weekly | perService
deriving DecidableEq, Repr

/-- User role enum from the User model. -/
inductive Role where
  | owner | sitter
deriving DecidableEq, Repr

/-- Booking status enum from the Booking model. -/
inductive Status where
  | pending | confirmed | in_progress | completed | cancelled | declined
deriving DecidableEq, Repr

/-- The `validTransitions` table hard-coded in `updateBookingStatus`
(bookingController). -/
def validTransitions : Status → List Status
  | .pending     => [.confirmed, .declined, .cancelled]
  | .confirmed   => [.in_progress, .cancelled]
  | .in_progress => [.completed, .cancelled]
  | .completed   => []
  | .cancelled   => []
  | .declined    => []

/-- Service record (the fields used by the booking engine). -/
structure Service where
  sitter : UserId
  price : ℚ
  priceType : PriceType
  petTypes : List Species
  instantBooking : Bool
  totalBookings : Nat
  isActive : Bool
deriving DecidableEq, Repr

/-- Pet record (the fields used by the pet controller and booking engine). -/
structure Pet where
  owner : UserId
  species : Species
  photos : List String
  isActive : Bool
deriving DecidableEq, Repr

/-- A check-in / check-out record on a booking: presence of the record
models a set `checkIn.time` / `checkOut.time` in the Mongoose document. -/
structure CheckRecord where
  time : Ms
  notes : Option String
  photos : List String
deriving DecidableEq, Repr

/-- The `cancellation` sub-document written by `updateBookingStatus`. -/
structure Cancellation where
  cancelledBy : UserId
  cancelledAt : Ms
  reason : Option String
  refundAmount : ℚ
deriving DecidableEq, Repr

/-- Booking record (the fields used by the verified operations). -/
structure Booking where
  owner : UserId
  sitter : UserId
  service : ResId
  pet : ResId
  startDate : Ms
  endDate : Ms
  status : Status
  totalPrice : ℚ
  serviceFee : ℚ
  notes : Option String
  ownerNotes : Option String
  sitterNotes : Option String
  checkIn : Option CheckRecord
  checkOut : Option CheckRecord
  cancellation : Option Cancellation
deriving DecidableEq, Repr

/-- User record (the fields used by authentication). Password storage is
abstracted: `correctPassword` (bcrypt compare in the source) is modelled
as equality with the stored secret. -/
structure User where
  email : String
  password : String
  role : Role
  isActive : Bool
  lastLogin : Option Ms
deriving DecidableEq, Repr

/-- The database: one association list per MongoDB collection. -/
structure DB where
  users : List (UserId × User)
  pets : List (ResId × Pet)
  services : List (ResId × Service)
  bookings : List (ResId × Booking)
deriving DecidableEq, Repr

/-- `findById`: first entry with the given id, if any. -/
def findId {α : Type} (l : List (ResId × α)) (i : ResId) : Option α :=
  (l.find? (fun p => p.1 == i)).map (fun p => p.2)

/-- Replace the record stored under an id (used to model `document.save()`). -/
def setId {α : Type} (l : List (ResId × α)) (i : ResId) (a : α) :
    List (ResId × α) :=
  l.map (fun p => if p.1 == i then (p.1, a) else p)

/-- Error outcomes of the modelled handlers, tagged by origin. -/
inductive Err where
  | serviceNotFound        -- 404: service missing or inactive
  | petNotFound            -- 404: pet missing, inactive or not owned
  | unsupportedPetType     -- 400: pet species not in service.petTypes
  | slotUnavailable        -- 400: conflicting booking exists
  | bookingNotFound        -- 404: booking missing or not scoped to caller
  | ownerOnlyCancel        -- 403: owner requested a non-cancel status
  | invalidSitterStatus    -- 403: sitter requested a non-sitter status
  | invalidTransition      -- 400: transition outside validTransitions
  | cannotCancel           -- 400: canBeCancelled returned false
  | alreadyCheckedIn       -- 400
  | mustCheckInBeforeOut   -- 400
  | alreadyCheckedOut      -- 400
  | invalidPhotoIndex      -- 400
  | validationFailed       -- 400: Joi schema validation rejected the body
  | saveError              -- 500: plain Error thrown by a pre-save hook
deriving DecidableEq, Repr

/-- HTTP status code the error middleware assigns to each error:
Joi failures and business-rule checks answer 4xx with status "fail";
a plain Error from a Mongoose pre-save hook has no statusCode and falls
through to 500 with status "error". -/
def Err.httpCode : Err → Nat
  | .serviceNotFound => 404
  | .petNotFound => 404
  | .unsupportedPetType => 400
  | .slotUnavailable => 400
  | .bookingNotFound => 404
  | .ownerOnlyCancel => 403
  | .invalidSitterStatus => 403
  | .invalidTransition => 400
  | .cannotCancel => 400
  | .alreadyCheckedIn => 400
  | .mustCheckInBeforeOut => 400
  | .alreadyCheckedOut => 400
  | .invalidPhotoIndex => 400
  | .validationFailed => 400
  | .saveError => 500

/-! ## Pricing (createBooking, bookingController) -/

/-- Milliseconds in one hour (`36e5` in the source). -/
def msPerHour : Nat := 3600000
/-- Milliseconds in one day. -/
def msPerDay : Nat := 86400000
/-- Milliseconds in one week. -/
def msPerWeek : Nat := 604800000

/-- `Math.ceil (ms / unit)` for a nonnegative integer count of
milliseconds and a positive unit: exact rational division, then ceiling,
computed as ceiling division on naturals. -/
def ceilDiv (ms unit : Nat) : Nat := (ms + unit - 1) / unit

/-- Base price before the service fee, exactly as computed in
`createBooking`: the duration is `Math.abs(end - start)` milliseconds. -/
def basePrice (s : Service) (start endD : Ms) : ℚ :=
  let ms : Nat := (endD - start).natAbs
  match s.priceType with
  | .hourly => s.price * (ceilDiv ms msPerHour : ℚ)
  | .daily => s.price * (ceilDiv ms msPerDay : ℚ)
  | .weekly => s.price * (ceilDiv ms msPerWeek : ℚ)
  | .perService => s.price

/-! ## Booking model methods (Booking.js) -/

/-- `canBeCancelled`: false when completed or cancelled, otherwise
requires strictly more than 24 hours until the start.  The source
compares `(startDate - now) / 3.6e6 > 24`, equivalent over exact
arithmetic to `startDate - now > 24h` in milliseconds. -/
def canBeCancelled (b : Booking) (now : Ms) : Bool :=
  if b.status = .completed ∨ b.status = .cancelled then false
  else decide (b.startDate - now > 24 * (msPerHour : Int))

/-- `calculateRefund`: full refund above 48 hours, half refund above 24
hours, otherwise nothing. -/
def calculateRefund (b : Booking) (now : Ms) : ℚ :=
  if b.startDate - now > 48 * (msPerHour : Int) then b.totalPrice
  else if b.startDate - now > 24 * (msPerHour : Int) then b.totalPrice * (1/2)
  else 0

/-- A booking status that occupies the calendar of the sitter
(`findConflicts` queries `status ∈ {pending, confirmed, in_progress}`). -/
def blocking (st : Status) : Bool :=
  st = .pending ∨ st = .confirmed ∨ st = .in_progress

/-- `Booking.findConflicts(sitterId, startDate, endDate)`: bookings of
the sitter in a blocking status whose interval satisfies
`existing.startDate <= endDate AND existing.endDate >= startDate`. -/
def findConflicts (bookings : List (ResId × Booking)) (sitterId : UserId)
    (startDate endDate : Ms) : List (ResId × Booking) :=
  bookings.filter (fun p =>
    p.2.sitter == sitterId && blocking p.2.status &&
    decide (p.2.startDate ≤ endDate) && decide (p.2.endDate ≥ startDate))

/-! ## Booking creation (POST /bookings) -/

/-- The Joi `bookingSchema` date rules applied by the route middleware `validate`
middleware: `startDate: Joi.date().min(now)` and
`endDate: Joi.date().min(Joi.ref(startDate))` — both bounds inclusive. -/
def bookingJoiDatesOk (startDate endDate now : Ms) : Bool :=
  decide (startDate ≥ now) && decide (endDate ≥ startDate)

/-- The Booking pre-save hook: a plain `Error` when `endDate <= startDate`
or when the `startDate` of the new document is strictly in the past. -/
def bookingPreSaveOk (b : Booking) (now : Ms) : Except Err Unit :=
  if b.endDate ≤ b.startDate then .error .saveError
  else if b.startDate < now then .error .saveError
  else .ok ()

/-- The `bookingData` object assembled by `createBooking`: denormalized
sitter, price plus a 5% service fee, initial status confirmed exactly
when the service has instant booking. -/
def mkBooking (uid : UserId) (srv : Service) (serviceId petId : ResId)
    (startDate endDate : Ms) (notes : Option String) : Booking :=
  let base := basePrice srv startDate endDate
  let fee := base * (5/100)
  { owner := uid, sitter := srv.sitter, service := serviceId,
    pet := petId, startDate := startDate, endDate := endDate,
    status := if srv.instantBooking then .confirmed else .pending,
    totalPrice := base + fee, serviceFee := fee, notes := notes,
    ownerNotes := none, sitterNotes := none,
    checkIn := none, checkOut := none, cancellation := none }

/-- `createBooking` (bookingController), the controller body reached after
`protect`, `restrictTo(owner)` and `validate(bookingSchema)`:
service lookup (active), pet lookup (owned, active), species support,
conflict check, price computation, then `Booking.create` which runs the
pre-save hook.  `newId` is the id MongoDB assigns to the new document. -/
def createBooking (db : DB) (uid : UserId) (serviceId petId : ResId)
    (startDate endDate : Ms) (notes : Option String) (now : Ms)
    (newId : ResId) : Except Err (DB × Booking) :=
  match findId db.services serviceId with
  | none => .error .serviceNotFound
  | some s =>
    if ¬ s.isActive then .error .serviceNotFound
    else
      match findId db.pets petId with
      | none => .error .petNotFound
      | some p =>
        if ¬ (p.owner = uid ∧ p.isActive) then .error .petNotFound
        else if p.species ∉ s.petTypes then .error .unsupportedPetType
        else if findConflicts db.bookings s.sitter startDate endDate ≠ [] then
          .error .slotUnavailable
        else
          match bookingPreSaveOk (mkBooking uid s serviceId petId startDate endDate notes) now with
          | .error e => .error e
          | .ok _ => .ok ({ db with bookings := db.bookings ++ [(newId, mkBooking uid s serviceId petId startDate endDate notes)] }, mkBooking uid s serviceId petId startDate endDate notes)

/-- `POST /bookings` as routed: the Joi date validation runs before the
controller body. -/
def postBooking (db : DB) (uid : UserId) (serviceId petId : ResId)
    (startDate endDate : Ms) (notes : Option String) (now : Ms)
    (newId : ResId) : Except Err (DB × Booking) :=
  if ¬ bookingJoiDatesOk startDate endDate now then .error .validationFailed
  else createBooking db uid serviceId petId startDate endDate notes now newId

/-! ## Booking status update (PATCH /bookings/:id/status) -/

/-- Statuses a sitter may request (`allowedStatuses` in the source). -/
def sitterAllowed (st : Status) : Bool :=
  st = .confirmed ∨ st = .declined ∨ st = .in_progress ∨ st = .completed

/-- The role gate at the top of `updateBookingStatus`: owners may only
request cancellation, sitters only their four statuses. -/
def roleGate (role : Role) (reqStatus : Status) : Except Err Unit :=
  match role with
  | .owner => if reqStatus ≠ .cancelled then .error .ownerOnlyCancel else .ok ()
  | .sitter => if ¬ sitterAllowed reqStatus then .error .invalidSitterStatus else .ok ()

/-- The scoped `Booking.findOne(query)`: the query carries
`owner: uid` for owners and `sitter: uid` for sitters. -/
def scopedBooking (db : DB) (role : Role) (uid : UserId) (bid : ResId) :
    Option Booking :=
  match findId db.bookings bid with
  | none => none
  | some b =>
    match role with
    | .owner => if b.owner = uid then some b else none
    | .sitter => if b.sitter = uid then some b else none

/-- The totalBookings increment applied to the service of the booking. -/
def incTotalBookings (services : List (ResId × Service)) (sid : ResId) :
    List (ResId × Service) :=
  services.map (fun p =>
    if p.1 == sid then (p.1, { p.2 with totalBookings := p.2.totalBookings + 1 })
    else p)

/-- The successful write path of `updateBookingStatus`: the cancellation
record when cancelling, then the status write, then the role-specific
notes field. -/
def applyStatusUpdate (b : Booking) (role : Role) (uid : UserId)
    (reqStatus : Status) (notes : Option String) (now : Ms) : Booking :=
  let cxl : Cancellation :=
    { cancelledBy := uid, cancelledAt := now, reason := notes,
      refundAmount := calculateRefund b now }
  let b1 :=
    if reqStatus = .cancelled then { b with cancellation := some cxl }
    else b
  let b2 := { b1 with status := reqStatus }
  match role, notes with
  | .owner, some n => { b2 with ownerNotes := some n }
  | .sitter, some n => { b2 with sitterNotes := some n }
  | _, none => b2

/-- `updateBookingStatus` (bookingController): role gate, scoped fetch,
transition-table check, cancellation policy, notes, save, and the
`totalBookings` increment when the requested status is confirmed. -/
def updateBookingStatus (db : DB) (role : Role) (uid : UserId) (bid : ResId)
    (reqStatus : Status) (notes : Option String) (now : Ms) :
    Except Err (DB × Booking) :=
  match roleGate role reqStatus with
  | .error e => .error e
  | .ok _ =>
    match scopedBooking db role uid bid with
    | none => .error .bookingNotFound
    | some b =>
      if reqStatus ∉ validTransitions b.status then .error .invalidTransition
      else if reqStatus = .cancelled ∧ ¬ canBeCancelled b now then
        .error .cannotCancel
      else if reqStatus = .confirmed then
        .ok ({ db with bookings := setId db.bookings bid (applyStatusUpdate b role uid reqStatus notes now), services := incTotalBookings db.services b.service }, applyStatusUpdate b role uid reqStatus notes now)
      else
        .ok ({ db with bookings := setId db.bookings bid (applyStatusUpdate b role uid reqStatus notes now) }, applyStatusUpdate b role uid reqStatus notes now)

/-! ## Check-in / check-out (POST /bookings/:id/checkin, /checkout) -/

/-- The check-in write: record time, notes and photos; force the status
to in_progress. -/
def withCheckIn (b : Booking) (now : Ms) (notes : Option String)
    (photos : List String) : Booking :=
  { b with checkIn := some { time := now, notes := notes, photos := photos },
           status := .in_progress }

/-- The check-out write: record time, notes and photos; force the status
to completed. -/
def withCheckOut (b : Booking) (now : Ms) (notes : Option String)
    (photos : List String) : Booking :=
  { b with checkOut := some { time := now, notes := notes, photos := photos },
           status := .completed }

/-- `checkInOut` (bookingController): sitter-scoped fetch, then either
check-in (requires no prior check-in, sets status in_progress) or
check-out (requires a check-in and no prior check-out, sets status
completed).  No transition-table check is performed here. -/
def checkInOut (db : DB) (uid : UserId) (bid : ResId) (isCheckIn : Bool)
    (notes : Option String) (photos : List String) (now : Ms) :
    Except Err (DB × Booking) :=
  match scopedBooking db .sitter uid bid with
  | none => .error .bookingNotFound
  | some b =>
    if isCheckIn then
      if b.checkIn.isSome then .error .alreadyCheckedIn
      else
        .ok ({ db with bookings := setId db.bookings bid (withCheckIn b now notes photos) }, withCheckIn b now notes photos)
    else
      if b.checkIn.isNone then .error .mustCheckInBeforeOut
      else if b.checkOut.isSome then .error .alreadyCheckedOut
      else
        .ok ({ db with bookings := setId db.bookings bid (withCheckOut b now notes photos) }, withCheckOut b now notes photos)

/-! ## Pet controller (GET/DELETE /pets/:id, DELETE /pets/:id/photos/:i) -/

/-- The scoped `Pet.findOne({_id, owner, isActive: true})` shared by the
pet handlers. -/
def scopedPet (db : DB) (uid : UserId) (pid : ResId) : Option Pet :=
  match findId db.pets pid with
  | none => none
  | some p => if p.owner = uid ∧ p.isActive then some p else none

/-- `getPet` (petController): owner-scoped active lookup, 404 when absent. -/
def getPet (db : DB) (uid : UserId) (pid : ResId) : Except Err Pet :=
  match scopedPet db uid pid with
  | none => .error .petNotFound
  | some p => .ok p

/-- `deletePet` (petController): owner-scoped active lookup, then soft
delete by clearing `isActive`. -/
def deletePet (db : DB) (uid : UserId) (pid : ResId) : Except Err DB :=
  match scopedPet db uid pid with
  | none => .error .petNotFound
  | some p =>
    .ok { db with pets := setId db.pets pid { p with isActive := false } }

/-- `deletePhoto` (petController): owner-scoped active lookup, bounds
check on the parsed index, then `photos.splice(photoIndex, 1)`. -/
def deletePhoto (db : DB) (uid : UserId) (pid : ResId) (photoIndex : Int) :
    Except Err (DB × Pet) :=
  match scopedPet db uid pid with
  | none => .error .petNotFound
  | some p =>
    if photoIndex < 0 ∨ photoIndex ≥ (p.photos.length : Int) then
      .error .invalidPhotoIndex
    else
      let p1 := { p with photos := p.photos.eraseIdx photoIndex.toNat }
      .ok ({ db with pets := setId db.pets pid p1 }, p1)

/-! ## Login (POST /auth/login) -/

/-- `User.findByCredentials`: throws on unknown email, on a wrong
password, and on a deactivated account (three distinct messages). -/
def findByCredentials (users : List (UserId × User)) (email password : String) :
    Except String (UserId × User) :=
  match users.find? (fun p => p.2.email == email) with
  | none => .error "Invalid login credentials"
  | some p =>
    if ¬ (password = p.2.password) then .error "Invalid login credentials"
    else if ¬ p.2.isActive then
      .error "Account is deactivated. Please reactivate your account to continue."
    else .ok p

/-- An HTTP response as produced by the login handler: status code,
envelope status, message, and the logged-in user when successful. -/
structure LoginResponse where
  code : Nat
  status : String
  message : Option String
  user : Option (UserId × User)
deriving DecidableEq, Repr

/-- `login` (authController): every throw from `findByCredentials` is
caught and answered with the one fixed 401 response; success stamps
`lastLogin` and answers 200. -/
def login (db : DB) (email password : String) (now : Ms) :
    LoginResponse × DB :=
  match findByCredentials db.users email password with
  | .error _ =>
    ({ code := 401, status := "fail",
       message := some "Invalid email or password", user := none }, db)
  | .ok (i, u) =>
    let u1 := { u with lastLogin := some now }
    ({ code := 200, status := "success", message := none,
       user := some (i, u1) },
     { db with users := setId db.users i u1 })

/-- Whether a modelled operation succeeded. -/
def isOk {ε α : Type} : Except ε α → Bool
  | .ok _ => true
  | .error _ => false

/-! ## Concrete fixture used by witnesses and counterexamples -/

/-- A dog-sitting service: sitter 2, 10 per hour, no instant booking. -/
def fxService : Service :=
  { sitter := 2, price := 10, priceType := .hourly, petTypes := [.dog],
    instantBooking := false, totalBookings := 0, isActive := true }

/-- The same service with instant booking switched on. -/
def fxInstant : Service := { fxService with instantBooking := true }

/-- A dog owned by user 1 with three photos. -/
def fxPet : Pet :=
  { owner := 1, species := .dog, photos := ["a.jpg", "b.jpg", "c.jpg"],
    isActive := true }

/-- A pending 90-minute booking of service 10 by owner 1 with sitter 2,
starting at 200000000 ms. -/
def fxBooking : Booking :=
  { owner := 1, sitter := 2, service := 10, pet := 20,
    startDate := 200000000, endDate := 205400000, status := .pending,
    totalPrice := 21, serviceFee := 1, notes := none, ownerNotes := none,
    sitterNotes := none, checkIn := none, checkOut := none,
    cancellation := none }

/-- An active owner account and a deactivated one. -/
def fxUserActive : User :=
  { email := "ann@example.com", password := "pw-ann", role := .owner,
    isActive := true, lastLogin := none }

def fxUserInactive : User :=
  { email := "bob@example.com", password := "pw-bob", role := .owner,
    isActive := false, lastLogin := none }

/-- The fixture database: two users, one pet, two services, one pending
booking. -/
def fxDB : DB :=
  { users := [(1, fxUserActive), (2, fxUserInactive)],
    pets := [(20, fxPet)],
    services := [(10, fxService), (11, fxInstant)],
    bookings := [(30, fxBooking)] }

/-- The booking the C2 witness request creates: 90 minutes on the
hourly fixture service. -/
def fxHourlyBk : Booking := mkBooking 1 fxService 10 20 100000000 105400000 none

/-- The store after the C2 witness request. -/
def fxDBhourly : DB := { fxDB with bookings := fxDB.bookings ++ [(31, fxHourlyBk)] }

/-- The booking the C10 witness request creates on the instant-booking
service: it starts out confirmed. -/
def fxInstantBk : Booking := mkBooking 1 fxInstant 11 20 300000000 305400000 none

/-- The store after the C10 witness request. -/
def fxDBinstant : DB := { fxDB with bookings := fxDB.bookings ++ [(31, fxInstantBk)] }

/-- The fixture booking as cancelled by its owner 30 hours before the
start (the start is at 200000000 ms; 30 hours earlier is 92000000 ms). -/
def fxCancelBk : Booking := applyStatusUpdate fxBooking .owner 1 .cancelled none 92000000

/-- The store after that cancellation. -/
def fxDBcancel : DB := { fxDB with bookings := setId fxDB.bookings 30 fxCancelBk }

/-! ## Helper lemmas -/

/-- Updating the record stored under a present id makes `findId` return
the new record. -/
theorem setId_cons_ne {α : Type} (k : ResId) (b : α) (tl : List (ResId × α))
    (i : ResId) (a : α) (hk : k ≠ i) :
    setId ((k, b) :: tl) i a = (k, b) :: setId tl i a := by
  simp [setId, hk]

theorem setId_cons_self {α : Type} (k : ResId) (b : α) (tl : List (ResId × α))
    (a : α) : setId ((k, b) :: tl) k a = (k, a) :: setId tl k a := by
  simp [setId]

theorem findId_cons_ne {α : Type} (k : ResId) (b : α) (tl : List (ResId × α))
    (j : ResId) (hk : k ≠ j) : findId ((k, b) :: tl) j = findId tl j := by
  simp [findId, List.find?, beq_false_of_ne hk]

theorem findId_setId {α : Type} (l : List (ResId × α)) (i : ResId) (a : α)
    (h : (findId l i).isSome) : findId (setId l i a) i = some a := by
  induction l with
  | nil => simp [findId] at h
  | cons hd tl ih =>
    rcases hd with ⟨k, b⟩
    by_cases hk : k = i
    · subst hk
      simp [findId, setId, List.find?]
    · rw [setId_cons_ne k b tl i a hk, findId_cons_ne k b _ i hk]
      rw [findId_cons_ne k b tl i hk] at h
      exact ih h

/-- `setId` touches no id other than the one written. -/
theorem findId_setId_ne {α : Type} (l : List (ResId × α)) (i j : ResId) (a : α)
    (h : i ≠ j) : findId (setId l i a) j = findId l j := by
  induction l with
  | nil => simp [findId, setId]
  | cons hd tl ih =>
    rcases hd with ⟨k, b⟩
    by_cases hk : k = i
    · subst hk
      rw [setId_cons_self k b tl a]
      rw [findId_cons_ne k a _ j h, findId_cons_ne k b tl j h]
      exact ih
    · rw [setId_cons_ne k b tl i a hk]
      by_cases hj : k = j
      · subst hj
        simp [findId, List.find?]
      · rw [findId_cons_ne k b _ j hj, findId_cons_ne k b tl j hj]
        exact ih

/-! ## C7 — cross-owner pet reads answer NotFound, never Forbidden -/

/-- Claim C7: `getPet` returns a pet only when it is active and owned by
the caller; in every other case — the id being absent, the pet being
inactive, or the pet belonging to a different owner — it fails with the
404 NotFound error, never with a 403 Forbidden one. -/
theorem getPet_notFound_never_forbidden (db : DB) (uid : UserId) (pid : ResId) :
    (∀ p, getPet db uid pid = .ok p →
      findId db.pets pid = some p ∧ p.owner = uid ∧ p.isActive = true) ∧
    (∀ e, getPet db uid pid = .error e →
      e = .petNotFound ∧ e.httpCode = 404 ∧ e.httpCode ≠ 403) ∧
    (∀ p, findId db.pets pid = some p → ¬ (p.owner = uid ∧ p.isActive) →
      getPet db uid pid = .error .petNotFound) := by
  refine ⟨?_, ?_, ?_⟩
  · intro p h
    unfold getPet scopedPet at h
    cases hf : findId db.pets pid with
    | none => simp [hf] at h
    | some q =>
      simp only [hf] at h
      by_cases hq : q.owner = uid ∧ q.isActive
      · rw [if_pos hq] at h
        simp only [Except.ok.injEq] at h
        subst h
        exact ⟨rfl, hq.1, hq.2⟩
      · simp [hq] at h
  · intro e h
    unfold getPet scopedPet at h
    cases hf : findId db.pets pid with
    | none =>
      simp only [hf, Except.error.injEq] at h
      simp [← h, Err.httpCode]
    | some q =>
      simp only [hf] at h
      by_cases hq : q.owner = uid ∧ q.isActive
      · simp [hq] at h
      · simp only [hq, if_neg, Except.error.injEq, not_false_iff] at h
        simp [← h, Err.httpCode]
  · intro p hf hq
    unfold getPet scopedPet
    simp [hf, hq]

/-- Witness for C7: the fixture pet 20 belongs to owner 1, so owner 3
reading it gets the 404 NotFound error, not a 403. -/
theorem getPet_notFound_never_forbidden_witness :
    getPet fxDB 3 20 = .error .petNotFound ∧
    Err.petNotFound.httpCode = 404 ∧ Err.petNotFound.httpCode ≠ 403 := by
  have h := (getPet_notFound_never_forbidden fxDB 3 20).2.2 fxPet (by decide)
    (by decide)
  exact ⟨h, by decide, by decide⟩

/-! ## C4 — soft delete is not idempotent at the API level -/

theorem scopedPet_eq_some {db : DB} {uid : UserId} {pid : ResId} {p : Pet}
    (h : scopedPet db uid pid = some p) :
    findId db.pets pid = some p ∧ p.owner = uid ∧ p.isActive = true := by
  unfold scopedPet at h
  cases hf : findId db.pets pid with
  | none => simp [hf] at h
  | some q =>
    simp only [hf] at h
    by_cases hq : q.owner = uid ∧ q.isActive
    · rw [if_pos hq] at h
      simp only [Option.some.injEq] at h
      subst h
      exact ⟨rfl, hq.1, hq.2⟩
    · simp [hq] at h

/-- Counterexample to claim C4 as stated: on the fixture store, the
first softDelete of pet 20 succeeds, but the second call fails with
NotFound because the owner-scoped query filters on `isActive: true` and
the pet is now inactive — it does not "succeed with no error". -/
theorem deletePet_twice_counterexample :
    deletePet fxDB 1 20 =
      .ok { fxDB with pets := setId fxDB.pets 20 { fxPet with isActive := false } } ∧
    deletePet { fxDB with pets := setId fxDB.pets 20 { fxPet with isActive := false } }
        1 20 = .error .petNotFound := by
  exact ⟨by decide, by decide⟩

/-- Claim C4 as amended: for an active pet owned by the caller, the
first softDelete succeeds and marks the pet inactive; the second call
then fails with the 404 NotFound error (the scoped lookup no longer
matches) and, being a pure lookup failure, changes nothing. -/
theorem deletePet_then_notFound (db : DB) (uid : UserId) (pid : ResId)
    (p : Pet) (h : scopedPet db uid pid = some p) :
    deletePet db uid pid =
      .ok { db with pets := setId db.pets pid { p with isActive := false } } ∧
    findId (setId db.pets pid { p with isActive := false }) pid =
      some { p with isActive := false } ∧
    deletePet { db with pets := setId db.pets pid { p with isActive := false } }
        uid pid = .error .petNotFound := by
  obtain ⟨hf, _, _⟩ := scopedPet_eq_some h
  have hsome : (findId db.pets pid).isSome := by rw [hf]; rfl
  have hset := findId_setId db.pets pid { p with isActive := false } hsome
  refine ⟨?_, hset, ?_⟩
  · unfold deletePet
    rw [h]
  · unfold deletePet scopedPet
    simp [hset]

/-- Witness for the amended C4 on the fixture store. -/
theorem deletePet_then_notFound_witness :
    deletePet fxDB 1 20 =
      .ok { fxDB with pets := setId fxDB.pets 20 { fxPet with isActive := false } } ∧
    findId (setId fxDB.pets 20 { fxPet with isActive := false }) 20 =
      some { fxPet with isActive := false } ∧
    deletePet { fxDB with pets := setId fxDB.pets 20 { fxPet with isActive := false } }
        1 20 = .error .petNotFound :=
  deletePet_then_notFound fxDB 1 20 fxPet (by decide)

/-! ## C8 — photo deletion by index -/

/-- Claim C8: for a pet visible to the caller, `deletePhoto` with an
in-range index removes exactly the photo at that position (the list
becomes the prefix before it plus the suffix after it, one element
shorter) and stores the result; any out-of-range index fails with the
invalid-index error, which returns before any mutation. -/
theorem deletePhoto_removes_exactly_one (db : DB) (uid : UserId) (pid : ResId)
    (idx : Int) (p : Pet) (h : scopedPet db uid pid = some p) :
    (0 ≤ idx ∧ idx < (p.photos.length : Int) →
      deletePhoto db uid pid idx =
        .ok ({ db with pets := setId db.pets pid { p with photos := p.photos.eraseIdx idx.toNat } }, { p with photos := p.photos.eraseIdx idx.toNat }) ∧
      p.photos.eraseIdx idx.toNat =
        p.photos.take idx.toNat ++ p.photos.drop (idx.toNat + 1) ∧
      (p.photos.eraseIdx idx.toNat).length + 1 = p.photos.length) ∧
    (¬ (0 ≤ idx ∧ idx < (p.photos.length : Int)) →
      deletePhoto db uid pid idx = .error .invalidPhotoIndex) := by
  constructor
  · intro hin
    have hlt : idx.toNat < p.photos.length := by omega
    refine ⟨?_, List.eraseIdx_eq_take_drop_succ _ _, ?_⟩
    · unfold deletePhoto
      rw [h]
      dsimp only
      rw [if_neg (show ¬ (idx < 0 ∨ idx ≥ (p.photos.length : Int)) by omega)]
    · have := List.length_eraseIdx_add_one hlt
      omega
  · intro hout
    unfold deletePhoto
    rw [h]
    dsimp only
    rw [if_pos (show idx < 0 ∨ idx ≥ (p.photos.length : Int) by omega)]

/-- Witness for C8: deleting photo 1 of the fixture pet keeps exactly
the other two photos. -/
theorem deletePhoto_removes_exactly_one_witness :
    (deletePhoto fxDB 1 20 1 =
      .ok ({ fxDB with pets := setId fxDB.pets 20 { fxPet with photos := fxPet.photos.eraseIdx 1 } }, { fxPet with photos := fxPet.photos.eraseIdx 1 }) ∧
      fxPet.photos.eraseIdx 1 = fxPet.photos.take 1 ++ fxPet.photos.drop 2 ∧
      (fxPet.photos.eraseIdx 1).length + 1 = fxPet.photos.length) ∧
    fxPet.photos.eraseIdx 1 = ["a.jpg", "c.jpg"] := by
  refine ⟨?_, by decide⟩
  have h := (deletePhoto_removes_exactly_one fxDB 1 20 1 fxPet (by decide)).1
    (by constructor <;> decide)
  simpa using h

/-! ## C9 — failed logins are indistinguishable -/

/-- Claim C9: any two failing login attempts — whatever the reason the
credential check threw (unknown email, wrong password, deactivated
account) — receive literally the same response: 401, status fail,
message "Invalid email or password", no user payload; and the store is
left untouched. -/
theorem login_failures_indistinguishable (db : DB) (e1 p1 e2 p2 : String)
    (n1 n2 : Ms)
    (h1 : isOk (findByCredentials db.users e1 p1) = false)
    (h2 : isOk (findByCredentials db.users e2 p2) = false) :
    (login db e1 p1 n1).1 = (login db e2 p2 n2).1 ∧
    (login db e1 p1 n1).1.code = 401 ∧
    (login db e1 p1 n1).1.status = "fail" ∧
    (login db e1 p1 n1).1.message = some "Invalid email or password" ∧
    (login db e1 p1 n1).1.user = none ∧
    (login db e1 p1 n1).2 = db := by
  unfold login
  cases hf1 : findByCredentials db.users e1 p1 with
  | ok v => rw [hf1] at h1; simp [isOk] at h1
  | error s1 =>
    cases hf2 : findByCredentials db.users e2 p2 with
    | ok v => rw [hf2] at h2; simp [isOk] at h2
    | error s2 => simp

/-- Witness for C9: on the fixture user store, an unknown email and a
correct password for the deactivated account draw the same response. -/
theorem login_failures_indistinguishable_witness :
    isOk (findByCredentials fxDB.users "nobody@example.com" "pw") = false ∧
    isOk (findByCredentials fxDB.users "bob@example.com" "pw-bob") = false ∧
    (login fxDB "nobody@example.com" "pw" 7).1 =
      (login fxDB "bob@example.com" "pw-bob" 9).1 ∧
    (login fxDB "nobody@example.com" "pw" 7).1.code = 401 := by
  refine ⟨by decide, by decide, ?_, ?_⟩
  · exact (login_failures_indistinguishable fxDB "nobody@example.com" "pw"
      "bob@example.com" "pw-bob" 7 9 (by decide) (by decide)).1
  · exact (login_failures_indistinguishable fxDB "nobody@example.com" "pw"
      "bob@example.com" "pw-bob" 7 9 (by decide) (by decide)).2.1

/-! ## Inversion lemmas for the booking operations -/

theorem bookingPreSaveOk_ok {b : Booking} {now : Ms} {u : Unit}
    (h : bookingPreSaveOk b now = .ok u) :
    b.startDate < b.endDate ∧ now ≤ b.startDate := by
  unfold bookingPreSaveOk at h
  by_cases h1 : b.endDate ≤ b.startDate
  · rw [if_pos h1] at h; exact Except.noConfusion h
  · rw [if_neg h1] at h
    by_cases h2 : b.startDate < now
    · rw [if_pos h2] at h; exact Except.noConfusion h
    · push_neg at h1 h2
      exact ⟨h1, h2⟩

/-- Everything a successful `createBooking` guarantees: all guards
passed, the booking is exactly `mkBooking`, and the store change is
exactly the appended booking. -/
theorem createBooking_ok_inv {db : DB} {uid : UserId} {serviceId petId : ResId}
    {startDate endDate : Ms} {notes : Option String} {now : Ms} {newId : ResId}
    {db2 : DB} {bk : Booking}
    (h : createBooking db uid serviceId petId startDate endDate notes now newId
      = .ok (db2, bk)) :
    ∃ srv p, findId db.services serviceId = some srv ∧ srv.isActive = true ∧
      findId db.pets petId = some p ∧ p.owner = uid ∧ p.isActive = true ∧
      p.species ∈ srv.petTypes ∧
      findConflicts db.bookings srv.sitter startDate endDate = [] ∧
      startDate < endDate ∧ now ≤ startDate ∧
      bk = mkBooking uid srv serviceId petId startDate endDate notes ∧
      db2 = { db with bookings := db.bookings ++ [(newId, bk)] } := by
  unfold createBooking at h
  cases hs : findId db.services serviceId with
  | none => rw [hs] at h; exact Except.noConfusion h
  | some srv =>
    simp only [hs] at h
    by_cases ha : srv.isActive = true
    · rw [if_neg (not_not_intro ha)] at h
      cases hp : findId db.pets petId with
      | none => rw [hp] at h; exact Except.noConfusion h
      | some p =>
        simp only [hp] at h
        by_cases ho : p.owner = uid ∧ p.isActive = true
        · rw [if_neg (not_not_intro ho)] at h
          by_cases hsp : p.species ∈ srv.petTypes
          · rw [if_neg (not_not_intro hsp)] at h
            by_cases hc : findConflicts db.bookings srv.sitter startDate endDate = []
            · rw [if_neg (not_not_intro hc)] at h
              cases hps : bookingPreSaveOk
                  (mkBooking uid srv serviceId petId startDate endDate notes) now with
              | error e => rw [hps] at h; exact Except.noConfusion h
              | ok u =>
                simp only [hps] at h
                have hdates := bookingPreSaveOk_ok hps
                simp only [mkBooking] at hdates
                simp only [Except.ok.injEq, Prod.mk.injEq] at h
                refine ⟨srv, p, rfl, ha, rfl, ho.1, ho.2, hsp, hc,
                  hdates.1, hdates.2, h.2.symm, ?_⟩
                rw [← h.2, ← h.1]
            · rw [if_pos hc] at h; exact Except.noConfusion h
          · rw [if_pos hsp] at h; exact Except.noConfusion h
        · rw [if_pos ho] at h; exact Except.noConfusion h
    · rw [if_pos (by simpa using ha)] at h; exact Except.noConfusion h

/-- A successful `postBooking` is a successful `createBooking` whose
dates also passed the Joi schema. -/
theorem postBooking_ok_inv {db : DB} {uid : UserId} {serviceId petId : ResId}
    {startDate endDate : Ms} {notes : Option String} {now : Ms} {newId : ResId}
    {db2 : DB} {bk : Booking}
    (h : postBooking db uid serviceId petId startDate endDate notes now newId
      = .ok (db2, bk)) :
    bookingJoiDatesOk startDate endDate now = true ∧
    createBooking db uid serviceId petId startDate endDate notes now newId
      = .ok (db2, bk) := by
  unfold postBooking at h
  by_cases hj : bookingJoiDatesOk startDate endDate now = true
  · rw [if_neg (not_not_intro hj)] at h; exact ⟨hj, h⟩
  · rw [if_pos (by simpa using hj)] at h; exact Except.noConfusion h

/-- Everything a successful `updateBookingStatus` guarantees: the gates
passed, the stored booking is `applyStatusUpdate`, and the store change
is the booking write plus the counter increment exactly when the
requested status is confirmed. -/
theorem updateBookingStatus_ok_inv {db : DB} {role : Role} {uid : UserId}
    {bid : ResId} {reqStatus : Status} {notes : Option String} {now : Ms}
    {db2 : DB} {bout : Booking}
    (h : updateBookingStatus db role uid bid reqStatus notes now = .ok (db2, bout)) :
    ∃ b, scopedBooking db role uid bid = some b ∧
      roleGate role reqStatus = .ok () ∧
      reqStatus ∈ validTransitions b.status ∧
      (reqStatus = .cancelled → canBeCancelled b now = true) ∧
      bout = applyStatusUpdate b role uid reqStatus notes now ∧
      db2 = (if reqStatus = .confirmed then { db with bookings := setId db.bookings bid bout, services := incTotalBookings db.services b.service } else { db with bookings := setId db.bookings bid bout }) := by
  unfold updateBookingStatus at h
  cases hg : roleGate role reqStatus with
  | error e => rw [hg] at h; exact Except.noConfusion h
  | ok u =>
    simp only [hg] at h
    cases hb : scopedBooking db role uid bid with
    | none => rw [hb] at h; exact Except.noConfusion h
    | some b =>
      simp only [hb] at h
      by_cases ht : reqStatus ∈ validTransitions b.status
      · rw [if_neg (not_not_intro ht)] at h
        by_cases hcb : reqStatus = .cancelled ∧ ¬ canBeCancelled b now = true
        · rw [if_pos hcb] at h; exact Except.noConfusion h
        · rw [if_neg hcb] at h
          by_cases hcf : reqStatus = .confirmed
          · rw [if_pos hcf] at h
            simp only [Except.ok.injEq, Prod.mk.injEq] at h
            refine ⟨b, rfl, ?_, ht, ?_, h.2.symm, ?_⟩
            · cases u; rfl
            · intro hq
              by_contra hno
              exact hcb ⟨hq, by simpa using hno⟩
            · rw [if_pos hcf, ← h.2, ← h.1]
          · rw [if_neg hcf] at h
            simp only [Except.ok.injEq, Prod.mk.injEq] at h
            refine ⟨b, rfl, ?_, ht, ?_, h.2.symm, ?_⟩
            · cases u; rfl
            · intro hq
              by_contra hno
              exact hcb ⟨hq, by simpa using hno⟩
            · rw [if_neg hcf, ← h.2, ← h.1]
      · rw [if_pos ht] at h; exact Except.noConfusion h

/-- The success path of `updateBookingStatus`, forward direction. -/
theorem updateBookingStatus_ok_of {db : DB} {role : Role} {uid : UserId}
    {bid : ResId} {reqStatus : Status} {notes : Option String} {now : Ms}
    {b : Booking}
    (hg : roleGate role reqStatus = .ok ())
    (hb : scopedBooking db role uid bid = some b)
    (ht : reqStatus ∈ validTransitions b.status)
    (hc : reqStatus = .cancelled → canBeCancelled b now = true) :
    updateBookingStatus db role uid bid reqStatus notes now =
      .ok ((if reqStatus = .confirmed then { db with bookings := setId db.bookings bid (applyStatusUpdate b role uid reqStatus notes now), services := incTotalBookings db.services b.service } else { db with bookings := setId db.bookings bid (applyStatusUpdate b role uid reqStatus notes now) }), applyStatusUpdate b role uid reqStatus notes now) := by
  unfold updateBookingStatus
  simp only [hg, hb]
  rw [if_neg (not_not_intro ht)]
  rw [if_neg (show ¬ (reqStatus = .cancelled ∧ ¬ canBeCancelled b now = true) by
    rintro ⟨hq1, hq2⟩; exact hq2 (hc hq1))]
  by_cases hcf : reqStatus = .confirmed
  · rw [if_pos hcf, if_pos hcf]
  · rw [if_neg hcf, if_neg hcf]

/-- An in-table cancellation request that fails the cancellation policy
is rejected with the cannot-cancel error. -/
theorem updateBookingStatus_cannotCancel_of {db : DB} {role : Role}
    {uid : UserId} {bid : ResId} {notes : Option String} {now : Ms} {b : Booking}
    (hg : roleGate role .cancelled = .ok ())
    (hb : scopedBooking db role uid bid = some b)
    (ht : Status.cancelled ∈ validTransitions b.status)
    (hc : canBeCancelled b now = false) :
    updateBookingStatus db role uid bid .cancelled notes now =
      .error .cannotCancel := by
  unfold updateBookingStatus
  simp only [hg, hb]
  rw [if_neg (not_not_intro ht)]
  simp [hc]

/-- An out-of-table transition request that reaches the transition check
is rejected with the invalid-transition error. -/
theorem updateBookingStatus_invalidTransition_of {db : DB} {role : Role}
    {uid : UserId} {bid : ResId} {reqStatus : Status} {notes : Option String}
    {now : Ms} {b : Booking}
    (hg : roleGate role reqStatus = .ok ())
    (hb : scopedBooking db role uid bid = some b)
    (ht : reqStatus ∉ validTransitions b.status) :
    updateBookingStatus db role uid bid reqStatus notes now =
      .error .invalidTransition := by
  unfold updateBookingStatus
  simp only [hg, hb]
  rw [if_pos ht]

/-- `applyStatusUpdate` writes the requested status. -/
theorem applyStatusUpdate_status (b : Booking) (role : Role) (uid : UserId)
    (reqStatus : Status) (notes : Option String) (now : Ms) :
    (applyStatusUpdate b role uid reqStatus notes now).status = reqStatus := by
  unfold applyStatusUpdate
  cases role <;> cases notes <;> simp

/-- `applyStatusUpdate` keeps the service reference. -/
theorem applyStatusUpdate_service (b : Booking) (role : Role) (uid : UserId)
    (reqStatus : Status) (notes : Option String) (now : Ms) :
    (applyStatusUpdate b role uid reqStatus notes now).service = b.service := by
  unfold applyStatusUpdate
  cases role <;> cases notes <;> by_cases hq : reqStatus = .cancelled <;>
    simp [hq]

/-- When cancelling, `applyStatusUpdate` records who cancelled, when,
the reason, and the refund computed by `calculateRefund`. -/
theorem applyStatusUpdate_cancellation (b : Booking) (role : Role)
    (uid : UserId) (notes : Option String) (now : Ms) :
    (applyStatusUpdate b role uid .cancelled notes now).cancellation =
      some { cancelledBy := uid, cancelledAt := now, reason := notes,
             refundAmount := calculateRefund b now } := by
  unfold applyStatusUpdate
  cases role <;> cases notes <;> simp

/-! ## C10 — the totalBookings counter moves only on a confirm request -/

theorem findId_incTotalBookings (services : List (ResId × Service))
    (sid : ResId) (srv : Service) (h : findId services sid = some srv) :
    findId (incTotalBookings services sid) sid =
      some { srv with totalBookings := srv.totalBookings + 1 } := by
  induction services with
  | nil => simp [findId] at h
  | cons hd tl ih =>
    rcases hd with ⟨k, b⟩
    by_cases hk : k = sid
    · subst hk
      have hb : b = srv := by simpa [findId, List.find?] using h
      subst hb
      simp [incTotalBookings, findId, List.find?]
    · have e1 : incTotalBookings ((k, b) :: tl) sid =
          (k, b) :: incTotalBookings tl sid := by
        simp [incTotalBookings, hk]
      rw [e1, findId_cons_ne k b _ sid hk]
      rw [findId_cons_ne k b tl sid hk] at h
      exact ih h

/-- Claim C10: creating a booking never touches the services store — in
particular the totalBookings counter — even when instant booking makes
the new booking start out confirmed; the status-update operation leaves
the services store unchanged unless the requested status is confirmed,
in which case it bumps totalBookings of the booking service by one. -/
theorem totalBookings_only_on_confirm :
    (∀ db uid sid pid s e notes now newId db2 bk,
      postBooking db uid sid pid s e notes now newId = .ok (db2, bk) →
      db2.services = db.services) ∧
    (∀ db role uid bid st notes now db2 bout,
      updateBookingStatus db role uid bid st notes now = .ok (db2, bout) →
      (st ≠ .confirmed → db2.services = db.services) ∧
      (st = .confirmed → db2.services = incTotalBookings db.services bout.service)) ∧
    (∀ services sid srv, findId services sid = some srv →
      findId (incTotalBookings services sid) sid =
        some { srv with totalBookings := srv.totalBookings + 1 }) := by
  refine ⟨?_, ?_, findId_incTotalBookings⟩
  · intro db uid sid pid s e notes now newId db2 bk h
    obtain ⟨_, hcr⟩ := postBooking_ok_inv h
    obtain ⟨srv, p, _, _, _, _, _, _, _, _, _, _, hdb2⟩ := createBooking_ok_inv hcr
    rw [hdb2]
  · intro db role uid bid st notes now db2 bout h
    obtain ⟨b, _, _, _, _, hbout, hdb2⟩ := updateBookingStatus_ok_inv h
    constructor
    · intro hne
      rw [hdb2, if_neg hne]
    · intro heq
      rw [hdb2, if_pos heq]
      rw [hbout, applyStatusUpdate_service]

/-- Witness for C10: booking the instant service persists a booking that
is already confirmed, yet the services store is unchanged. -/
theorem totalBookings_only_on_confirm_witness :
    postBooking fxDB 1 11 20 300000000 305400000 none 0 31 =
      .ok (fxDBinstant, fxInstantBk) ∧
    fxDBinstant.services = fxDB.services ∧
    fxInstantBk.status = .confirmed := by
  have hok : postBooking fxDB 1 11 20 300000000 305400000 none 0 31 =
      .ok (fxDBinstant, fxInstantBk) := by rfl
  exact ⟨hok, totalBookings_only_on_confirm.1 fxDB 1 11 20 300000000 305400000
    none 0 31 fxDBinstant fxInstantBk hok, by decide⟩

/-! ## C2 — hourly pricing -/

/-- Claim C2: a persisted booking on an hourly service carries
totalPrice = price times the ceiling of the duration in hours (exact
3600000 ms hours) times 1.05 — the 5% service fee included — and the
booking is stored under the fresh id. -/
theorem hourly_totalPrice (db : DB) (uid : UserId) (sid pid : ResId)
    (s e : Ms) (notes : Option String) (now : Ms) (newId : ResId)
    (db2 : DB) (bk : Booking) (srv : Service)
    (hok : postBooking db uid sid pid s e notes now newId = .ok (db2, bk))
    (hsrv : findId db.services sid = some srv)
    (hh : srv.priceType = .hourly) :
    bk.totalPrice = srv.price * (ceilDiv (e - s).toNat msPerHour : ℚ) * (21/20) ∧
    (newId, bk) ∈ db2.bookings := by
  obtain ⟨_, hcr⟩ := postBooking_ok_inv hok
  obtain ⟨srv2, p, hs2, hact, hp, hpo, hpa, hsp, hcf, hlt, hnow, hbk, hdb2⟩ :=
    createBooking_ok_inv hcr
  rw [hsrv] at hs2
  have hsrv2 : srv2 = srv := by
    simpa using hs2.symm
  subst hsrv2
  constructor
  · rw [hbk]
    simp only [mkBooking, basePrice, hh]
    have habs : (e - s).natAbs = (e - s).toNat := by
      unfold Ms at *
      omega
    rw [habs]
    ring
  · rw [hdb2]
    simp

/-- Witness for C2: price 10 per hour, a 90-minute interval: the
ceiling of 1.5 hours is 2, so the total is 10 * 2 * 1.05 = 21. -/
theorem hourly_totalPrice_witness :
    postBooking fxDB 1 10 20 100000000 105400000 none 0 31 =
      .ok (fxDBhourly, fxHourlyBk) ∧
    fxHourlyBk.totalPrice =
      fxService.price * (ceilDiv ((105400000 - 100000000 : Int)).toNat msPerHour : ℚ) * (21/20) ∧
    fxHourlyBk.totalPrice = 21 := by
  have hok : postBooking fxDB 1 10 20 100000000 105400000 none 0 31 =
      .ok (fxDBhourly, fxHourlyBk) := by rfl
  refine ⟨hok, (hourly_totalPrice fxDB 1 10 20 100000000 105400000 none 0 31
    fxDBhourly fxHourlyBk fxService hok rfl rfl).1, ?_⟩
  show (mkBooking 1 fxService 10 20 100000000 105400000 none).totalPrice = 21
  norm_num [mkBooking, basePrice, fxService, ceilDiv, msPerHour]

/-! ## C5 — date validation at booking creation -/

/-- Counterexample to claim C5 as stated: a request with
endDate = startDate passes the Joi schema (both date bounds are
inclusive), reaches the model, and dies in the pre-save hook with a
plain Error that the error middleware maps to a 500 "error" response —
not the claimed ValidationError (400). -/
theorem equal_dates_not_validationError :
    bookingJoiDatesOk 100000000 100000000 0 = true ∧
    postBooking fxDB 1 10 20 100000000 100000000 none 0 31 =
      .error .saveError ∧
    Err.saveError ≠ Err.validationFailed ∧
    Err.saveError.httpCode = 500 ∧ Err.validationFailed.httpCode = 400 := by
  refine ⟨by decide, by rfl, by decide, by decide, by decide⟩

/-- Claim C5 as amended: a creation request with endDate <= startDate or
startDate in the past never persists a booking; when endDate < startDate
or startDate is in the past the Joi validation rejects it with a
ValidationError (400), while the endDate = startDate borderline is
instead rejected later (by a guard or the pre-save hook), never with a
ValidationError. -/
theorem booking_bad_dates_never_persist (db : DB) (uid : UserId)
    (sid pid : ResId) (s e : Ms) (notes : Option String) (now : Ms)
    (newId : ResId) :
    ((e ≤ s ∨ s < now) →
      isOk (postBooking db uid sid pid s e notes now newId) = false) ∧
    ((e < s ∨ s < now) →
      postBooking db uid sid pid s e notes now newId =
        .error .validationFailed) := by
  constructor
  · intro hcond
    cases hres : postBooking db uid sid pid s e notes now newId with
    | error err => rfl
    | ok v =>
      exfalso
      obtain ⟨db2, bk⟩ := v
      obtain ⟨_, hcr⟩ := postBooking_ok_inv hres
      obtain ⟨srv2, p, _, _, _, _, _, _, _, hlt, hge, _, _⟩ :=
        createBooking_ok_inv hcr
      unfold Ms at *
      omega
  · intro hcond
    unfold postBooking
    rw [if_pos]
    show ¬ bookingJoiDatesOk s e now = true
    unfold bookingJoiDatesOk
    rcases hcond with hlt | hpast
    · simp only [Bool.and_eq_true, decide_eq_true_eq]
      rintro ⟨h1, h2⟩
      unfold Ms at *
      omega
    · simp only [Bool.and_eq_true, decide_eq_true_eq]
      rintro ⟨h1, h2⟩
      unfold Ms at *
      omega

/-- Witness for the amended C5: a request whose end precedes its start
is rejected by the Joi schema with the 400 ValidationError. -/
theorem booking_bad_dates_never_persist_witness :
    isOk (postBooking fxDB 1 10 20 100000000 90000000 none 0 31) = false ∧
    postBooking fxDB 1 10 20 100000000 90000000 none 0 31 =
      .error .validationFailed := by
  have h := booking_bad_dates_never_persist fxDB 1 10 20 100000000 90000000
    none 0 31
  exact ⟨h.1 (Or.inl (by decide)), h.2 (Or.inl (by decide))⟩

/-! ## C6 — slot conflicts -/

theorem bookingPreSaveOk_error {b : Booking} {now : Ms} {err : Err}
    (h : bookingPreSaveOk b now = .error err) : err = .saveError := by
  unfold bookingPreSaveOk at h
  by_cases h1 : b.endDate ≤ b.startDate
  · rw [if_pos h1] at h
    exact (Except.error.inj h).symm
  · rw [if_neg h1] at h
    by_cases h2 : b.startDate < now
    · rw [if_pos h2] at h
      exact (Except.error.inj h).symm
    · rw [if_neg h2] at h
      exact Except.noConfusion h

/-- Claim C6: once the earlier guards pass (valid dates, active service,
owned active pet of a supported species), creation fails with
SlotUnavailable exactly when `findConflicts` is non-empty; and a booking
is in `findConflicts` exactly when it belongs to the sitter, is in a
blocking status (pending, confirmed or in_progress — so completed,
cancelled and declined never block), and satisfies the overlap predicate
existing.start <= newEnd and existing.end >= newStart. -/
theorem slotUnavailable_iff_conflict (db : DB) (uid : UserId)
    (sid pid : ResId) (s e : Ms) (notes : Option String) (now : Ms)
    (newId : ResId) (srv : Service) (p : Pet)
    (hj : bookingJoiDatesOk s e now = true)
    (hsrv : findId db.services sid = some srv) (hact : srv.isActive = true)
    (hp : findId db.pets pid = some p) (hpo : p.owner = uid)
    (hpa : p.isActive = true) (hsp : p.species ∈ srv.petTypes) :
    (postBooking db uid sid pid s e notes now newId =
        .error .slotUnavailable ↔
      findConflicts db.bookings srv.sitter s e ≠ []) ∧
    (∀ bid b, (bid, b) ∈ findConflicts db.bookings srv.sitter s e ↔
      ((bid, b) ∈ db.bookings ∧ b.sitter = srv.sitter ∧
       (b.status = .pending ∨ b.status = .confirmed ∨
        b.status = .in_progress) ∧
       b.startDate ≤ e ∧ b.endDate ≥ s)) := by
  constructor
  · unfold postBooking createBooking
    rw [if_neg (not_not_intro hj)]
    simp only [hsrv]
    rw [if_neg (not_not_intro hact)]
    simp only [hp]
    rw [if_neg (not_not_intro ⟨hpo, hpa⟩)]
    rw [if_neg (not_not_intro hsp)]
    constructor
    · intro hsl
      by_contra hne
      rw [if_neg (show ¬ (findConflicts db.bookings srv.sitter s e ≠ []) from
        fun hk => hk hne)] at hsl
      cases hps : bookingPreSaveOk
          (mkBooking uid srv sid pid s e notes) now with
      | error err =>
        rw [hps] at hsl
        simp only [Except.error.injEq] at hsl
        rw [bookingPreSaveOk_error hps] at hsl
        exact Err.noConfusion hsl
      | ok u =>
        rw [hps] at hsl
        exact Except.noConfusion hsl
    · intro hne
      rw [if_pos hne]
  · intro bid b
    simp [findConflicts, List.mem_filter, blocking, and_assoc, ge_iff_le]

/-- Witness for C6: a request overlapping the pending fixture booking on
the same sitter is refused with SlotUnavailable. -/
theorem slotUnavailable_iff_conflict_witness :
    findConflicts fxDB.bookings fxService.sitter 204000000 210000000 ≠ [] ∧
    postBooking fxDB 1 10 20 204000000 210000000 none 0 31 =
      .error .slotUnavailable := by
  have h := slotUnavailable_iff_conflict fxDB 1 10 20 204000000 210000000
    none 0 31 fxService fxPet (by decide) rfl rfl rfl rfl rfl (by decide)
  exact ⟨by decide, h.1.mpr (by decide)⟩

/-! ## C3 — cancellation gate and refund schedule -/

/-- Claim C3: a cancellation request on a fetched booking succeeds only
when the booking is neither completed nor cancelled and its start is
strictly more than 24 hours away; the stored cancellation record then
carries a refund of the full totalPrice beyond 48 hours, half between
24 and 48 hours, and nothing otherwise.  When the booking is completed,
cancelled, or starts within 24 hours, the request never succeeds. -/
theorem cancellation_policy (db : DB) (role : Role) (uid : UserId)
    (bid : ResId) (notes : Option String) (now : Ms) (b : Booking)
    (hb : scopedBooking db role uid bid = some b) :
    (∀ db2 bout,
      updateBookingStatus db role uid bid .cancelled notes now =
        .ok (db2, bout) →
      (b.status ≠ .completed ∧ b.status ≠ .cancelled) ∧
      b.startDate - now > 24 * (msPerHour : Int) ∧
      bout.status = .cancelled ∧
      bout.cancellation = some (⟨uid, now, notes,
          if b.startDate - now > 48 * (msPerHour : Int) then b.totalPrice
          else if b.startDate - now > 24 * (msPerHour : Int) then
            b.totalPrice * (1/2)
          else 0⟩ : Cancellation)) ∧
    ((b.status = .completed ∨ b.status = .cancelled ∨
        b.startDate - now ≤ 24 * (msPerHour : Int)) →
      isOk (updateBookingStatus db role uid bid .cancelled notes now) =
        false) := by
  constructor
  · intro db2 bout h
    obtain ⟨b2, hb2, hg, ht, hcanc, hbout, hdb2⟩ := updateBookingStatus_ok_inv h
    rw [hb] at hb2
    have hbb := Option.some.inj hb2
    subst hbb
    have hcb : canBeCancelled b now = true := hcanc rfl
    unfold canBeCancelled at hcb
    have hnc : ¬ (b.status = .completed ∨ b.status = .cancelled) := by
      intro hor
      rw [if_pos hor] at hcb
      exact Bool.noConfusion hcb
    rw [if_neg hnc] at hcb
    simp only [decide_eq_true_eq] at hcb
    refine ⟨⟨fun hc => hnc (Or.inl hc), fun hc => hnc (Or.inr hc)⟩, hcb, ?_, ?_⟩
    · rw [hbout, applyStatusUpdate_status]
    · rw [hbout, applyStatusUpdate_cancellation]
      rfl
  · intro hvio
    cases hres : updateBookingStatus db role uid bid .cancelled notes now with
    | error err => rfl
    | ok v =>
      exfalso
      obtain ⟨db2, bout⟩ := v
      obtain ⟨b2, hb2, hg, ht, hcanc, hbout, hdb2⟩ :=
        updateBookingStatus_ok_inv hres
      rw [hb] at hb2
      have hbb := Option.some.inj hb2
      subst hbb
      have hcb : canBeCancelled b now = true := hcanc rfl
      rcases hvio with hst | hst | hhrs
      · rw [hst] at ht
        simp [validTransitions] at ht
      · rw [hst] at ht
        simp [validTransitions] at ht
      · unfold canBeCancelled at hcb
        by_cases hor : b.status = .completed ∨ b.status = .cancelled
        · rw [if_pos hor] at hcb
          exact Bool.noConfusion hcb
        · rw [if_neg hor] at hcb
          simp only [decide_eq_true_eq] at hcb
          unfold Ms at *
          omega

/-- Witness for C3: the owner cancels the pending fixture booking 30
hours before its start; the recorded refund falls in the between-24-and-
48-hours band. -/
theorem cancellation_policy_witness :
    scopedBooking fxDB .owner 1 30 = some fxBooking ∧
    updateBookingStatus fxDB .owner 1 30 .cancelled none 92000000 =
      .ok (fxDBcancel, fxCancelBk) ∧
    ((fxBooking.status ≠ .completed ∧ fxBooking.status ≠ .cancelled) ∧
     fxBooking.startDate - 92000000 > 24 * (msPerHour : Int) ∧
     fxCancelBk.status = .cancelled ∧
     fxCancelBk.cancellation = some (⟨1, 92000000, none,
         if fxBooking.startDate - 92000000 > 48 * (msPerHour : Int) then
           fxBooking.totalPrice
         else if fxBooking.startDate - 92000000 > 24 * (msPerHour : Int) then
           fxBooking.totalPrice * (1/2)
         else 0⟩ : Cancellation)) := by
  have hok : updateBookingStatus fxDB .owner 1 30 .cancelled none 92000000 =
      .ok (fxDBcancel, fxCancelBk) := by rfl
  exact ⟨by decide, hok,
    (cancellation_policy fxDB .owner 1 30 none 92000000 fxBooking
      (by decide)).1 fxDBcancel fxCancelBk hok⟩

/-! ## C1 — the transition table binds updateBookingStatus only -/

/-- Counterexample to claim C1 as stated: check-in is a mutating
operation, yet on the pending fixture booking it succeeds and moves the
status to in_progress although pending -> in_progress is not in the
transition table — it neither fails InvalidTransition nor leaves the
status unchanged. -/
theorem checkin_bypasses_transition_table :
    fxBooking.status = .pending ∧
    checkInOut fxDB 2 30 true none [] 0 =
      .ok ({ fxDB with bookings := setId fxDB.bookings 30 (withCheckIn fxBooking 0 none []) }, withCheckIn fxBooking 0 none []) ∧
    (withCheckIn fxBooking 0 none []).status = .in_progress ∧
    Status.in_progress ∉ validTransitions Status.pending := by
  exact ⟨by decide, by rfl, by decide, by decide⟩

/-- Claim C1 as amended: the status-update operation respects the
transition table — on success the new status is the requested one and
the move is in the table, and a request outside the table that passes
the role gate and the scoped fetch fails with InvalidTransition, writing
nothing.  Check-in and check-out, however, bypass the table: check-in
succeeds whenever the sitter has not checked in yet and forces the
status to in_progress; check-out succeeds whenever checked in but not
yet out and forces the status to completed. -/
theorem status_transition_table_amended :
    (∀ db role uid bid st notes now db2 bout b,
      updateBookingStatus db role uid bid st notes now = .ok (db2, bout) →
      scopedBooking db role uid bid = some b →
      bout.status = st ∧ st ∈ validTransitions b.status) ∧
    (∀ db role uid bid st notes now b,
      roleGate role st = .ok () →
      scopedBooking db role uid bid = some b →
      st ∉ validTransitions b.status →
      updateBookingStatus db role uid bid st notes now =
        .error .invalidTransition) ∧
    (∀ db uid bid notes photos now b,
      scopedBooking db .sitter uid bid = some b →
      b.checkIn = none →
      checkInOut db uid bid true notes photos now =
        .ok ({ db with bookings := setId db.bookings bid (withCheckIn b now notes photos) }, withCheckIn b now notes photos) ∧
      (withCheckIn b now notes photos).status = .in_progress) ∧
    (∀ db uid bid notes photos now b c,
      scopedBooking db .sitter uid bid = some b →
      b.checkIn = some c →
      b.checkOut = none →
      checkInOut db uid bid false notes photos now =
        .ok ({ db with bookings := setId db.bookings bid (withCheckOut b now notes photos) }, withCheckOut b now notes photos) ∧
      (withCheckOut b now notes photos).status = .completed) := by
  refine ⟨?_, ?_, ?_, ?_⟩
  · intro db role uid bid st notes now db2 bout b h hbs
    obtain ⟨b2, hb2, hg, ht, hcanc, hbout, hdb2⟩ := updateBookingStatus_ok_inv h
    rw [hbs] at hb2
    have hbb := Option.some.inj hb2
    subst hbb
    exact ⟨by rw [hbout, applyStatusUpdate_status], ht⟩
  · intro db role uid bid st notes now b hg hbs ht
    exact updateBookingStatus_invalidTransition_of hg hbs ht
  · intro db uid bid notes photos now b hbs hcin
    refine ⟨?_, rfl⟩
    unfold checkInOut
    simp [hbs, hcin]
  · intro db uid bid notes photos now b c hbs hcin hcout
    refine ⟨?_, rfl⟩
    unfold checkInOut
    simp [hbs, hcin, hcout]

/-- Witness for the amended C1: a sitter asking to complete the pending
fixture booking passes the role gate and the fetch but is rejected with
InvalidTransition. -/
theorem status_transition_table_amended_witness :
    roleGate .sitter .completed = .ok () ∧
    scopedBooking fxDB .sitter 2 30 = some fxBooking ∧
    Status.completed ∉ validTransitions fxBooking.status ∧
    updateBookingStatus fxDB .sitter 2 30 .completed none 0 =
      .error .invalidTransition := by
  refine ⟨by decide, by decide, by decide, ?_⟩
  exact status_transition_table_amended.2.1 fxDB .sitter 2 30 .completed none
    0 fxBooking (by decide) (by decide) (by decide)

end PetCare
